import Mathlib

/-!
Verification development for the `almondrocks3` multiplexing tunnel
(reverse SOCKS5 proxy).  The Python source is shallowly embedded:

* bytes are `List Nat` (each element a byte value);
* `struct.pack`/`struct.unpack` with format `!BHI` become explicit
  big-endian byte arithmetic, with `Option` results where `struct.pack`
  raises `struct.error` on out-of-range values;
* the mutable `Tunnel` object becomes a `TunnelState` record threaded
  through pure transition functions, which also report the frames sent
  over the transport and the callbacks invoked;
* the blocking transport becomes a list of delivery chunks: `recv n`
  pops up to `n` bytes from the front chunk, and an exhausted list (or
  an empty chunk) models EOF.
-/

namespace Arox

/-- The four wire message types (class `MessageType` in the source). -/
inductive MessageType where
  | Control
  | Data
  | OpenChannel
  | CloseChannel
deriving DecidableEq, Repr

/-- `MessageType.value`: the numeric value of each enum member. -/
def MessageType.value : MessageType → Nat
  | .Control => 0
  | .Data => 1
  | .OpenChannel => 2
  | .CloseChannel => 3

/-- `MessageType(n)`: Python enum lookup by value; `none` models the
`ValueError` raised for an unknown value. -/
def MessageType.ofNat? : Nat → Option MessageType
  | 0 => some .Control
  | 1 => some .Data
  | 2 => some .OpenChannel
  | 3 => some .CloseChannel
  | _ => none

/-- A `Message` as in the source: body bytes, channel id, type. -/
structure Message where
  body : List Nat
  channel_id : Nat
  msg_type : MessageType
deriving DecidableEq, Repr

/-- Big-endian 2-byte encoding of a `Nat` (format char `H`).  Matches
`struct.pack` output for in-range values. -/
def be16 (n : Nat) : List Nat := [n / 256 % 256, n % 256]

/-- Big-endian 4-byte encoding of a `Nat` (format char `I`). -/
def be32 (n : Nat) : List Nat :=
  [n / 16777216 % 256, n / 65536 % 256, n / 256 % 256, n % 256]

/-- Big-endian decoding of 2 bytes (format char `H`). -/
def be16dec (a b : Nat) : Nat := a * 256 + b

/-- Big-endian decoding of 4 bytes (format char `I`). -/
def be32dec (a b c d : Nat) : Nat := ((a * 256 + b) * 256 + c) * 256 + d

/-- `struct.calcsize('!BHI')`. -/
def HDR_SIZE : Nat := 7

/-- The raw header+body byte stream produced by `Message.serialize`
when `struct.pack` succeeds. -/
def Message.serializeBytes (m : Message) : List Nat :=
  m.msg_type.value :: (be16 m.channel_id ++ be32 m.body.length ++ m.body)

/-- `Message.serialize`: `struct.pack('!BHI', type, id, len(body)) + body`.
`struct.pack` raises `struct.error` when the channel id exceeds the range
of format `H` or the body length exceeds the range of format `I`; that
failure is modelled as `none`. -/
def Message.serialize (m : Message) : Option (List Nat) :=
  if m.channel_id ≤ 65535 ∧ m.body.length ≤ 4294967295 then
    some m.serializeBytes
  else
    none

/-- Errors raised by `Message.parse` (all `ValueError` in the source,
distinguished here by their message). -/
inductive ParseErr where
  | incompleteHeader
  | badType (t : Nat)
  | badLength (got expected : Nat)
deriving DecidableEq, Repr

/-- `Message.parse`: check for a full 7-byte header, unpack it, check the
announced length against the remaining bytes, and rebuild the `Message`. -/
def Message.parse (data : List Nat) : Except ParseErr Message :=
  match data with
  | t :: a :: b :: c :: d :: e :: f :: rest =>
    match MessageType.ofNat? t with
    | none => .error (.badType t)
    | some mt =>
      if be32dec c d e f ≠ rest.length then
        .error (.badLength rest.length (be32dec c d e f))
      else
        .ok ⟨rest, be16dec a b, mt⟩
  | _ => .error .incompleteHeader

/-- `Message.parse_hdr` applied to an exact 7-byte header, as used by
`Tunnel.recv_message`; `none` models the uncaught `ValueError` from
`MessageType(...)` on an unknown type byte. -/
def parse_hdr (h : List Nat) : Option (MessageType × Nat × Nat) :=
  match h with
  | t :: a :: b :: c :: d :: e :: f :: _ =>
    (MessageType.ofNat? t).map (fun mt => (mt, be16dec a b, be32dec c d e f))
  | _ => none

theorem ofNat?_value (mt : MessageType) : MessageType.ofNat? mt.value = some mt := by
  cases mt <;> rfl

theorem be16_roundtrip (n : Nat) (h : n ≤ 65535) :
    be16dec (n / 256 % 256) (n % 256) = n := by
  unfold be16dec
  omega

theorem be32_roundtrip (n : Nat) (h : n ≤ 4294967295) :
    be32dec (n / 16777216 % 256) (n / 65536 % 256) (n / 256 % 256) (n % 256) = n := by
  unfold be32dec
  omega

theorem parse_serializeBytes (m : Message) (hid : m.channel_id ≤ 65535)
    (hlen : m.body.length ≤ 4294967295) :
    Message.parse m.serializeBytes = .ok m := by
  obtain ⟨body, cid, mt⟩ := m
  simp only [Message.serializeBytes, be16, be32, List.cons_append, List.nil_append,
    Message.parse, ofNat?_value]
  rw [be32_roundtrip body.length hlen]
  simp only [ne_eq, not_true_eq_false, if_neg, ite_false]
  rw [be16_roundtrip cid hid]

/-- C1.  Frame round-trip: for every message type, every channel id that
fits in 16 bits, and every body shorter than 2^32 bytes, `serialize`
succeeds and `parse` of its output recovers the same type, id and body;
and serializing `(Data, 0x1234, b"hello")` yields exactly the bytes
`01 12 34 00 00 00 05 68 65 6c 6c 6f`. -/
theorem frame_roundtrip :
    (∀ (mt : MessageType) (cid : Nat) (body : List Nat),
      cid ≤ 65535 → body.length ≤ 4294967295 →
      (Message.mk body cid mt).serialize = some (Message.mk body cid mt).serializeBytes ∧
      Message.parse (Message.mk body cid mt).serializeBytes = .ok (Message.mk body cid mt)) ∧
    (Message.mk [0x68, 0x65, 0x6c, 0x6c, 0x6f] 0x1234 .Data).serialize =
      some [0x01, 0x12, 0x34, 0x00, 0x00, 0x00, 0x05, 0x68, 0x65, 0x6c, 0x6c, 0x6f] := by
  constructor
  · intro mt cid body hid hlen
    constructor
    · simp [Message.serialize, hid, hlen]
    · exact parse_serializeBytes ⟨body, cid, mt⟩ hid hlen
  · decide

/-- Witness for C1 at a concrete frame. -/
theorem frame_roundtrip_witness :
    Message.parse (Message.mk [104, 101, 108, 108, 111] 4660 .Data).serializeBytes =
      .ok (Message.mk [104, 101, 108, 108, 111] 4660 .Data) :=
  (frame_roundtrip.1 .Data 4660 [104, 101, 108, 108, 111] (by decide) (by decide)).2

/-!
## Tunnel state and channel lifecycle

A `Channel` object is identified here by the pair of its creation token
(standing for the identity of the underlying socket pair) and its channel
id.  A `TunnelState` carries the source's `self.channels` list of
`(Channel, channel_id)` pairs (the id is stored inside the channel, so
the list is just a channel list) and `self.closed_channels`, a dict from
id to channel, modelled as an insertion-ordered association list.
-/

/-- One channel object: `token` models object identity (the socket pair),
`id` is the channel id passed to the constructor. -/
structure Channel where
  token : Nat
  id : Nat
deriving DecidableEq, Repr

/-- The mutable state of a `Tunnel` relevant to channel bookkeeping. -/
structure TunnelState where
  channels : List Channel
  closed : List (Nat × Channel)
  nextToken : Nat
deriving DecidableEq, Repr

/-- The Tunnel with no channels, fresh from the constructor. -/
def TunnelState.empty : TunnelState := ⟨[], [], 0⟩

/-- Ids of currently open channels. -/
def openIds (s : TunnelState) : List Nat := s.channels.map Channel.id

/-- Keys of `self.closed_channels`. -/
def closedKeys (s : TunnelState) : List Nat := s.closed.map Prod.fst

/-- `self.id_channel_map[i]`: a dict comprehension over `self.channels`,
so on (impossible-via-API, but modelled faithfully) duplicate ids the
*last* entry wins. -/
def idLookup (chs : List Channel) (i : Nat) : Option Channel :=
  chs.foldl (fun acc c => if c.id = i then some c else acc) none

/-- Errors surfaced by tunnel operations.  `duplicateChannel` and
`unknownChannel` are the source's `ValueError`s from `open_channel` /
`close_channel`; `structError` is the `struct.error` escaping
`Message.serialize` on an out-of-range channel id. -/
inductive TErr where
  | duplicateChannel
  | unknownChannel
  | structError
deriving DecidableEq, Repr

/-- Result of one tunnel operation: the new state, the serialized frames
sent over the transport (in order), the channels passed to the open and
close callbacks, and the returned value or raised error. -/
structure OpOut (α : Type) where
  state : TunnelState
  sent : List (List Nat)
  openCbs : List Channel
  closeCbs : List Channel
  result : Except TErr α
deriving Repr

/-- `Tunnel._close_channel_remote`: serialize and send an empty
`CloseChannel` message. -/
def closeFrame (channel_id : Nat) : Option (List Nat) :=
  (Message.mk [] channel_id .CloseChannel).serialize

/-- `Tunnel._open_channel_remote`: serialize and send an empty
`OpenChannel` message. -/
def openFrame (channel_id : Nat) : Option (List Nat) :=
  (Message.mk [] channel_id .OpenChannel).serialize

/-- `Tunnel.close_channel(channel_id, close_remote, exc)`.  Mirrors the
source order: the already-closed early return (re-emitting the remote
close if requested), the unknown-id branch, then removal from
`self.channels`, endpoint closing, optional remote close, callback, and
filing into `self.closed_channels`.  A `struct.error` raised while
serializing the remote close aborts the operation at that point. -/
def close_channel (s : TunnelState) (channel_id : Nat) (close_remote exc : Bool) :
    OpOut Unit :=
  if channel_id ∈ closedKeys s then
    if close_remote then
      match closeFrame channel_id with
      | none => ⟨s, [], [], [], .error .structError⟩
      | some bytes => ⟨s, [bytes], [], [], .ok ()⟩
    else
      ⟨s, [], [], [], .ok ()⟩
  else
    match idLookup s.channels channel_id with
    | none =>
      if exc then ⟨s, [], [], [], .error .unknownChannel⟩
      else ⟨s, [], [], [], .ok ()⟩
    | some c =>
      let s' : TunnelState := ⟨s.channels.erase c, s.closed, s.nextToken⟩
      if close_remote then
        match closeFrame channel_id with
        | none => ⟨s', [], [], [], .error .structError⟩
        | some bytes =>
          ⟨⟨s'.channels, s.closed ++ [(channel_id, c)], s.nextToken⟩, [bytes], [], [c], .ok ()⟩
      else
        ⟨⟨s'.channels, s.closed ++ [(channel_id, c)], s.nextToken⟩, [], [], [c], .ok ()⟩

/-- `Tunnel.open_channel(channel_id, open_remote, exc)`.  If the id is
already open, warn and either raise or return the existing channel.
Otherwise construct a `Channel`, append it to `self.channels`, optionally
send an `OpenChannel` frame (a `struct.error` there propagates before the
callback runs), invoke the open callback, and return the channel. -/
def open_channel (s : TunnelState) (channel_id : Nat) (open_remote exc : Bool) :
    OpOut Channel :=
  match idLookup s.channels channel_id with
  | some c =>
    if exc then ⟨s, [], [], [], .error .duplicateChannel⟩
    else ⟨s, [], [], [], .ok c⟩
  | none =>
    let c : Channel := ⟨s.nextToken, channel_id⟩
    let s' : TunnelState := ⟨s.channels ++ [c], s.closed, s.nextToken + 1⟩
    if open_remote then
      match openFrame channel_id with
      | none => ⟨s', [], [], [], .error .structError⟩
      | some bytes => ⟨s', [bytes], [c], [], .ok c⟩
    else
      ⟨s', [], [c], [], .ok c⟩

/-- The serialized empty `CloseChannel` frame exists for 16-bit ids. -/
theorem closeFrame_eq (i : Nat) (h : i ≤ 65535) :
    closeFrame i = some (Message.mk [] i .CloseChannel).serializeBytes := by
  simp [closeFrame, Message.serialize, h]

/-- The serialized empty `OpenChannel` frame exists for 16-bit ids. -/
theorem openFrame_eq (i : Nat) (h : i ≤ 65535) :
    openFrame i = some (Message.mk [] i .OpenChannel).serializeBytes := by
  simp [openFrame, Message.serialize, h]

/-- C4.  `close_channel` on an already-closed id leaves the state (open
set, closed set, all channels) unchanged, emits a `CloseChannel` frame
iff `close_remote`, and invokes no callback; on an id neither open nor
closed it raises `UnknownChannel` when strict and is a state-preserving
no-op otherwise. -/
theorem close_channel_contract :
    (∀ (s : TunnelState) (i : Nat) (cr ex : Bool), i ∈ closedKeys s → i ≤ 65535 →
      (close_channel s i cr ex).state = s ∧
      (close_channel s i cr ex).sent =
        (if cr then [(Message.mk [] i .CloseChannel).serializeBytes] else []) ∧
      (close_channel s i cr ex).openCbs = [] ∧
      (close_channel s i cr ex).closeCbs = [] ∧
      (close_channel s i cr ex).result = .ok ()) ∧
    (∀ (s : TunnelState) (i : Nat) (cr : Bool), i ∉ closedKeys s →
      idLookup s.channels i = none →
      (close_channel s i cr true).result = .error .unknownChannel ∧
      close_channel s i cr false = ⟨s, [], [], [], .ok ()⟩ ∧
      (close_channel s i cr true).state = s ∧ (close_channel s i cr true).sent = []) := by
  constructor
  · intro s i cr ex hmem hle
    rw [close_channel, if_pos hmem, closeFrame_eq i hle]
    cases cr <;> simp
  · intro s i cr hmem hlook
    rw [close_channel, if_neg hmem, hlook, close_channel, if_neg hmem, hlook]
    simp

/-- Witness for C4: closing id 5 (already closed) re-emits the close
frame and touches nothing; closing unknown id 9 strictly raises. -/
theorem close_channel_contract_witness :
    ((close_channel ⟨[], [(5, ⟨0, 5⟩)], 1⟩ 5 true false).state = ⟨[], [(5, ⟨0, 5⟩)], 1⟩ ∧
      (close_channel ⟨[], [(5, ⟨0, 5⟩)], 1⟩ 5 true false).sent =
        [(Message.mk [] 5 .CloseChannel).serializeBytes] ∧
      (close_channel ⟨[], [(5, ⟨0, 5⟩)], 1⟩ 5 true false).result = .ok ()) ∧
    (close_channel ⟨[], [(5, ⟨0, 5⟩)], 1⟩ 9 false true).result = .error .unknownChannel := by
  have h1 := close_channel_contract.1 ⟨[], [(5, ⟨0, 5⟩)], 1⟩ 5 true false
    (by decide) (by decide)
  have h2 := close_channel_contract.2 ⟨[], [(5, ⟨0, 5⟩)], 1⟩ 9 false
    (by decide) (by decide)
  exact ⟨⟨h1.1, by simpa using h1.2.1, h1.2.2.2.2⟩, h2.1⟩

/-- C7.  `open_channel` on an already-open id raises `DuplicateChannel`
when strict, and otherwise returns the existing channel with no new
registration, no frame and no callback; on a fresh id it registers a new
channel, emits an `OpenChannel` frame iff `open_remote`, invokes the
open callback on the new channel, and returns it. -/
theorem open_channel_contract :
    (∀ (s : TunnelState) (i : Nat) (or : Bool) (c : Channel),
      idLookup s.channels i = some c →
      (open_channel s i or true).result = .error .duplicateChannel ∧
      (open_channel s i or true).state = s ∧ (open_channel s i or true).sent = [] ∧
      (open_channel s i or true).openCbs = [] ∧
      open_channel s i or false = ⟨s, [], [], [], .ok c⟩) ∧
    (∀ (s : TunnelState) (i : Nat) (or ex : Bool),
      idLookup s.channels i = none → i ≤ 65535 →
      (open_channel s i or ex).state =
        ⟨s.channels ++ [⟨s.nextToken, i⟩], s.closed, s.nextToken + 1⟩ ∧
      (open_channel s i or ex).sent =
        (if or then [(Message.mk [] i .OpenChannel).serializeBytes] else []) ∧
      (open_channel s i or ex).openCbs = [⟨s.nextToken, i⟩] ∧
      (open_channel s i or ex).result = .ok ⟨s.nextToken, i⟩) := by
  constructor
  · intro s i or c hlook
    rw [open_channel, hlook, open_channel, hlook]
    simp
  · intro s i or ex hlook hle
    rw [open_channel, hlook, openFrame_eq i hle]
    cases or <;> simp

/-- Witness for C7: reopening open id 3 non-strictly returns the
existing channel unchanged; opening fresh id 4 with `open_remote`
registers it, emits the frame, and fires the callback. -/
theorem open_channel_contract_witness :
    open_channel ⟨[⟨0, 3⟩], [], 1⟩ 3 true false = ⟨⟨[⟨0, 3⟩], [], 1⟩, [], [], [], .ok ⟨0, 3⟩⟩ ∧
    ((open_channel ⟨[⟨0, 3⟩], [], 1⟩ 4 true true).state = ⟨[⟨0, 3⟩, ⟨1, 4⟩], [], 2⟩ ∧
      (open_channel ⟨[⟨0, 3⟩], [], 1⟩ 4 true true).sent =
        [(Message.mk [] 4 .OpenChannel).serializeBytes] ∧
      (open_channel ⟨[⟨0, 3⟩], [], 1⟩ 4 true true).openCbs = [⟨1, 4⟩] ∧
      (open_channel ⟨[⟨0, 3⟩], [], 1⟩ 4 true true).result = .ok ⟨1, 4⟩) := by
  have h1 := open_channel_contract.1 ⟨[⟨0, 3⟩], [], 1⟩ 3 true ⟨0, 3⟩ (by decide)
  have h2 := open_channel_contract.2 ⟨[⟨0, 3⟩], [], 1⟩ 4 true true (by decide) (by decide)
  exact ⟨h1.2.2.2.2, by simpa using h2.1, by simpa using h2.2.1, h2.2.2.1, h2.2.2.2⟩

/-!
## Open/closed id bookkeeping

Helper lemmas about `idLookup`, then the disjointness invariant for
sequences of `open_channel` / `close_channel` calls (which is exactly
what the monitor loop's `OpenChannel` / `CloseChannel` dispatch performs,
with `remote = exc = false`).
-/

theorem idLookup_aux_some {i : Nat} {c : Channel} :
    ∀ (l : List Channel) (acc : Option Channel),
      l.foldl (fun acc c => if c.id = i then some c else acc) acc = some c →
      acc = some c ∨ (c ∈ l ∧ c.id = i) := by
  intro l
  induction l with
  | nil => intro acc h; exact .inl h
  | cons x xs ih =>
    intro acc h
    rcases ih _ h with h' | h'
    · dsimp only at h'
      by_cases hx : x.id = i
      · rw [if_pos hx] at h'
        have hxc : x = c := Option.some.inj h'
        subst hxc
        exact .inr ⟨List.mem_cons_self x xs, hx⟩
      · rw [if_neg hx] at h'
        exact .inl h'
    · exact .inr ⟨List.mem_cons_of_mem x h'.1, h'.2⟩

theorem idLookup_some {l : List Channel} {i : Nat} {c : Channel}
    (h : idLookup l i = some c) : c ∈ l ∧ c.id = i := by
  rcases idLookup_aux_some l none h with h' | h'
  · cases h'
  · exact h'

theorem idLookup_aux_none {i : Nat} :
    ∀ (l : List Channel) (acc : Option Channel),
      l.foldl (fun acc c => if c.id = i then some c else acc) acc = none ↔
        acc = none ∧ ∀ c ∈ l, c.id ≠ i := by
  intro l
  induction l with
  | nil => intro acc; simp [List.foldl]
  | cons x xs ih =>
    intro acc
    rw [List.foldl_cons, ih]
    by_cases hx : x.id = i
    · simp [hx]
    · simp only [hx, if_neg, if_false, List.mem_cons]
      constructor
      · rintro ⟨h1, h2⟩
        exact ⟨h1, by rintro c (rfl | hc); exact hx; exact h2 c hc⟩
      · rintro ⟨h1, h2⟩
        exact ⟨h1, fun c hc => h2 c (.inr hc)⟩

theorem idLookup_eq_none {l : List Channel} {i : Nat} :
    idLookup l i = none ↔ ∀ c ∈ l, c.id ≠ i := by
  rw [idLookup, idLookup_aux_none]
  simp

/-- The invariant carried by tunnel states reachable without id reuse:
open and closed id sets are disjoint, and open ids are distinct. -/
def Inv (s : TunnelState) : Prop :=
  (∀ i ∈ openIds s, i ∉ closedKeys s) ∧ (openIds s).Nodup

instance (s : TunnelState) : Decidable (Inv s) := by
  unfold Inv
  infer_instance

/-- `open_channel` either leaves the state alone or appends one fresh
channel with the requested id. -/
theorem open_channel_state (s : TunnelState) (i : Nat) (r e : Bool) :
    (open_channel s i r e).state = s ∨
      (idLookup s.channels i = none ∧
        (open_channel s i r e).state =
          ⟨s.channels ++ [⟨s.nextToken, i⟩], s.closed, s.nextToken + 1⟩) := by
  rw [open_channel]
  cases hl : idLookup s.channels i with
  | some c => cases e <;> simp
  | none =>
    right
    refine ⟨rfl, ?_⟩
    cases r
    · rfl
    · cases openFrame i <;> rfl

/-- `close_channel` either leaves the state alone or moves one open
channel (found by id) out of the open list, possibly also filing it into
the closed map. -/
theorem close_channel_state (s : TunnelState) (i : Nat) (r e : Bool) :
    (close_channel s i r e).state = s ∨
      (∃ c, i ∉ closedKeys s ∧ idLookup s.channels i = some c ∧
        ((close_channel s i r e).state = ⟨s.channels.erase c, s.closed, s.nextToken⟩ ∨
          (close_channel s i r e).state =
            ⟨s.channels.erase c, s.closed ++ [(i, c)], s.nextToken⟩)) := by
  rw [close_channel]
  by_cases hm : i ∈ closedKeys s
  · rw [if_pos hm]
    cases r
    · simp
    · cases closeFrame i <;> simp
  · rw [if_neg hm]
    cases hl : idLookup s.channels i with
    | none => cases e <;> simp
    | some c =>
      right
      refine ⟨c, hm, rfl, ?_⟩
      cases r
      · simp
      · cases closeFrame i <;> simp

theorem inv_open (s : TunnelState) (i : Nat) (r e : Bool)
    (hsafe : i ∉ closedKeys s) (h : Inv s) : Inv (open_channel s i r e).state := by
  rcases open_channel_state s i r e with heq | ⟨hlook, heq⟩
  · rwa [heq]
  · rw [heq]
    have hfresh : i ∉ openIds s := by
      intro hmem
      rcases List.mem_map.1 hmem with ⟨c, hc, hci⟩
      exact idLookup_eq_none.1 hlook c hc hci
    have hop : openIds ⟨s.channels ++ [⟨s.nextToken, i⟩], s.closed, s.nextToken + 1⟩ =
        openIds s ++ [i] := by simp [openIds]
    constructor
    · intro j hj
      rw [hop] at hj
      rcases List.mem_append.1 hj with hj' | hj'
      · exact h.1 j hj'
      · rw [List.mem_singleton] at hj'
        subst hj'
        exact hsafe
    · rw [hop, List.nodup_append]
      exact ⟨h.2, List.nodup_singleton i, by simpa using hfresh⟩

theorem inv_close (s : TunnelState) (i : Nat) (r e : Bool)
    (h : Inv s) : Inv (close_channel s i r e).state := by
  rcases close_channel_state s i r e with heq | ⟨c, hnc, hlook, hst⟩
  · rwa [heq]
  · obtain ⟨hcmem, hcid⟩ := idLookup_some hlook
    have hidsub : List.Sublist ((s.channels.erase c).map Channel.id) (openIds s) :=
      (List.erase_sublist c s.channels).map Channel.id
    have hnodup' : ((s.channels.erase c).map Channel.id).Nodup :=
      h.2.sublist hidsub
    have hchnodup : s.channels.Nodup := List.Nodup.of_map Channel.id h.2
    have hmapnd : (s.channels.map Channel.id).Nodup := h.2
    have hnoti : i ∉ (s.channels.erase c).map Channel.id := by
      intro hmem
      rcases List.mem_map.1 hmem with ⟨d, hd, hdi⟩
      have hd' : d ∈ s.channels := (List.erase_sublist c s.channels).subset hd
      have : d = c :=
        List.inj_on_of_nodup_map hmapnd hd' hcmem (hdi.trans hcid.symm)
      subst this
      exact hchnodup.not_mem_erase hd
    have hsubset : ∀ j ∈ (s.channels.erase c).map Channel.id, j ∈ openIds s :=
      fun j hj => hidsub.subset hj
    rcases hst with heq | heq <;> rw [heq]
    · exact ⟨fun j hj => h.1 j (hsubset j hj), hnodup'⟩
    · refine ⟨?_, hnodup'⟩
      intro j hj hjc
      simp only [closedKeys, List.map_append, List.map_cons, List.map_nil,
        List.mem_append, List.mem_singleton] at hjc
      rcases hjc with hjc | hjc
      · exact h.1 j (hsubset j hj) hjc
      · subst hjc
        exact hnoti hj

/-- One channel-lifecycle API call (also what the monitor loop performs
on receipt of an `OpenChannel` or `CloseChannel` frame, with both flags
false). -/
inductive TOp where
  | openOp (i : Nat) (remote exc : Bool)
  | closeOp (i : Nat) (remote exc : Bool)
deriving DecidableEq, Repr

def execOp (s : TunnelState) : TOp → TunnelState
  | .openOp i r e => (open_channel s i r e).state
  | .closeOp i r e => (close_channel s i r e).state

def execOps (s : TunnelState) : List TOp → TunnelState
  | [] => s
  | op :: rest => execOps (execOp s op) rest

/-- A sequence is reuse-free when no `open_channel` call targets an id
that is in the closed set at that moment. -/
def safeOps (s : TunnelState) : List TOp → Bool
  | [] => true
  | .openOp i r e :: rest =>
    !(closedKeys s).contains i && safeOps (execOp s (.openOp i r e)) rest
  | .closeOp i r e :: rest => safeOps (execOp s (.closeOp i r e)) rest

theorem inv_execOps (s : TunnelState) (ops : List TOp) (h : Inv s)
    (hsafe : safeOps s ops = true) : Inv (execOps s ops) := by
  induction ops generalizing s with
  | nil => exact h
  | cons op rest ih =>
    cases op with
    | openOp i r e =>
      rw [safeOps, Bool.and_eq_true] at hsafe
      have hnot : i ∉ closedKeys s := by
        simpa using hsafe.1
      exact ih _ (inv_open s i r e hnot h) hsafe.2
    | closeOp i r e =>
      rw [safeOps] at hsafe
      exact ih _ (inv_close s i r e h) hsafe

/-- C2 (amended).  After every sequence of `open_channel` /
`close_channel` calls (the monitor dispatch included) in which no open
targets an id currently in the closed set, the open and closed id sets
are disjoint.  (Id reuse breaks this: see the counterexample.) -/
theorem open_closed_disjoint (s : TunnelState) (ops : List TOp) (h : Inv s)
    (hsafe : safeOps s ops = true) :
    ∀ i ∈ openIds (execOps s ops), i ∉ closedKeys (execOps s ops) :=
  (inv_execOps s ops h hsafe).1

/-- Witness for C2 on a concrete reuse-free trace. -/
theorem open_closed_disjoint_witness :
    4 ∉ closedKeys (execOps TunnelState.empty
      [.openOp 3 false false, .closeOp 3 true false, .openOp 4 true true]) :=
  open_closed_disjoint TunnelState.empty
    [.openOp 3 false false, .closeOp 3 true false, .openOp 4 true true]
    (by decide) (by decide) 4 (by decide)

/-- Counterexample to C2 as stated: after `open 3; close 3; open 3`
(id reuse) the id 3 is simultaneously in the open and the closed set,
because `open_channel` never removes the id from `closed_channels`. -/
theorem open_closed_disjoint_cex :
    3 ∈ openIds (execOps TunnelState.empty
        [.openOp 3 false false, .closeOp 3 false false, .openOp 3 false false]) ∧
    3 ∈ closedKeys (execOps TunnelState.empty
        [.openOp 3 false false, .closeOp 3 false false, .openOp 3 false false]) := by
  decide

/-!
## Monitor dispatch and tunnel shutdown
-/

/-- Dispatch of one received message in `Tunnel._monitor` (the transport
branch).  `delivered` records the Data bodies written to channel tunnel
endpoints (the success path of `sendall`; socket failure is environment
behaviour and not modelled), `ignored` the ids appended to this
iteration's `ignored_channels`. -/
structure DispatchOut where
  op : OpOut Unit
  delivered : List (Channel × List Nat)
  ignored : List Nat
deriving Repr

/-- Forget the returned channel of an `open_channel` call. -/
def unitOut (o : OpOut Channel) : OpOut Unit :=
  ⟨o.state, o.sent, o.openCbs, o.closeCbs, o.result.map (fun _ => ())⟩

/-- An operation output that touches nothing. -/
def noopOut (s : TunnelState) : OpOut Unit := ⟨s, [], [], [], .ok ()⟩

/-- The message-type dispatch of `Tunnel._monitor`:
`CloseChannel` → local `close_channel` (no remote echo) plus the ignored
list; `OpenChannel` → local `open_channel`; `Data` → deliver to the
channel found by id, or `close_channel(id, close_remote=True)` when the
id is unknown; anything else (`Control`) → warning only. -/
def monitorDispatch (s : TunnelState) (m : Message) : DispatchOut :=
  match m.msg_type with
  | .CloseChannel => ⟨close_channel s m.channel_id false false, [], [m.channel_id]⟩
  | .OpenChannel => ⟨unitOut (open_channel s m.channel_id false false), [], []⟩
  | .Data =>
    match idLookup s.channels m.channel_id with
    | none => ⟨close_channel s m.channel_id true false, [], []⟩
    | some c => ⟨noopOut s, [(c, m.body)], []⟩
  | .Control => ⟨noopOut s, [], []⟩

/-- C3 (amended).  When the monitor receives a Data frame for an id not
in the open set, it emits a `CloseChannel` frame to the remote if and
only if the id is in the closed set; for ids never opened on this tunnel
the non-strict unknown-id path of `close_channel` is a silent no-op and
no frame is sent. -/
theorem monitor_unknown_data (s : TunnelState) (m : Message)
    (hd : m.msg_type = .Data) (hu : idLookup s.channels m.channel_id = none)
    (hle : m.channel_id ≤ 65535) :
    (m.channel_id ∈ closedKeys s →
      (monitorDispatch s m).op.sent =
        [(Message.mk [] m.channel_id .CloseChannel).serializeBytes]) ∧
    (m.channel_id ∉ closedKeys s →
      (monitorDispatch s m).op = ⟨s, [], [], [], .ok ()⟩) := by
  obtain ⟨body, cid, mt⟩ := m
  simp only at hd hu hle
  subst hd
  rw [monitorDispatch]
  simp only [hu]
  constructor
  · intro hmem
    rw [close_channel, if_pos hmem, closeFrame_eq cid hle]
    simp
  · intro hmem
    rw [close_channel, if_neg hmem, hu]
    simp

/-- Witness for C3: a Data frame for id 2, which was closed earlier,
does trigger a remote close frame. -/
theorem monitor_unknown_data_witness :
    (monitorDispatch ⟨[], [(2, ⟨0, 2⟩)], 1⟩ ⟨[9], 2, .Data⟩).op.sent =
      [(Message.mk [] 2 .CloseChannel).serializeBytes] :=
  (monitor_unknown_data ⟨[], [(2, ⟨0, 2⟩)], 1⟩ ⟨[9], 2, .Data⟩
    (by decide) (by decide) (by decide)).1 (by decide)

/-- Counterexample to C3 as stated: a Data frame for id 5, never opened
on an empty tunnel, produces no `CloseChannel` frame at all (the claim
demands one for every unknown id). -/
theorem monitor_unknown_data_cex :
    (monitorDispatch TunnelState.empty ⟨[97], 5, .Data⟩).op.sent = [] := by
  decide

/-- `close_channel` never grows the open list. -/
theorem close_channel_channels_le (s : TunnelState) (i : Nat) (r e : Bool) :
    (close_channel s i r e).state.channels.length ≤ s.channels.length := by
  rcases close_channel_state s i r e with heq | ⟨c, _, _, hst⟩
  · rw [heq]
  · rcases hst with heq | heq <;> rw [heq] <;>
      exact (List.erase_sublist c s.channels).length_le

/-- The loop of `Tunnel.close_tunnel`: CPython iterates the *live*
`self.channels` list by index while `close_channel` mutates it, so the
loop body runs for positions 0, 1, ... of the current list.  Returns the
final state, the frames sent, and the exception outcome. -/
def closeTunnelLoop (s : TunnelState) (i : Nat) (sent : List (List Nat)) :
    TunnelState × List (List Nat) × Except TErr Unit :=
  if h : i < s.channels.length then
    let o := close_channel s (s.channels[i].id) true false
    match o.result with
    | .error err => (o.state, sent ++ o.sent, .error err)
    | .ok _ => closeTunnelLoop o.state (i + 1) (sent ++ o.sent)
  else
    (s, sent, .ok ())
termination_by s.channels.length - i
decreasing_by
  have hle := close_channel_channels_le s (s.channels[i].id) true false
  omega

/-- `Tunnel.close_tunnel` (transport close elided: it always follows when
the loop returns normally). -/
def close_tunnel (s : TunnelState) : TunnelState × List (List Nat) × Except TErr Unit :=
  closeTunnelLoop s 0 []


/-- C5 fails on the code: with two open channels (ids 1 and 2),
`close_tunnel` removes the list entry under the live iterator, so the
loop visits only index 0; channel 2 stays in the open set, and only one
`CloseChannel` frame is emitted, even though the loop itself finishes
without error. -/
theorem close_tunnel_skips_channels :
    (close_tunnel ⟨[⟨0, 1⟩, ⟨1, 2⟩], [], 2⟩).1.channels = [⟨1, 2⟩] ∧
    (close_tunnel ⟨[⟨0, 1⟩, ⟨1, 2⟩], [], 2⟩).2.1 =
      [(Message.mk [] 1 .CloseChannel).serializeBytes] ∧
    (close_tunnel ⟨[⟨0, 1⟩, ⟨1, 2⟩], [], 2⟩).2.2 = .ok () := by
  simp [close_tunnel, closeTunnelLoop, close_channel, closedKeys, idLookup, closeFrame,
    Message.serialize, List.erase]

/-!
## Channel id exhaustion (`counter` and format `H`)
-/

/-- `counter(start, end)`: the generator yields `start, start+1, ...,
end-1`. The Server draws channel ids from `counter(0)` with the default
`end=0xffffffff`. -/
def counterVals (start stop : Nat) : List Nat := List.range' start (stop - start)

/-- C10.  `Message.serialize` is defined only for 16-bit channel ids:
for every id ≥ 65536 packing the `!BHI` header fails and no bytes are
produced; the Server's id counter ranges over [0, 2^32−1), handing the
65537th SOCKS client the id 65536; that client's
`open_channel(open_remote=True)` registers the channel but fails with a
`struct.error` before any `OpenChannel` frame or callback. -/
theorem channel_id_overflow :
    (∀ (i : Nat), 65536 ≤ i → ∀ (body : List Nat) (mt : MessageType),
      (Message.mk body i mt).serialize = none) ∧
    (∀ v ∈ counterVals 0 4294967295, v < 4294967295) ∧
    (counterVals 0 4294967295)[65536]? = some 65536 ∧
    (∀ (s : TunnelState), idLookup s.channels 65536 = none →
      (open_channel s 65536 true true).sent = [] ∧
      (open_channel s 65536 true true).result = .error .structError ∧
      (open_channel s 65536 true true).openCbs = []) := by
  refine ⟨?_, ?_, ?_, ?_⟩
  · intro i hi body mt
    rw [Message.serialize, if_neg]
    show ¬(i ≤ 65535 ∧ body.length ≤ 4294967295)
    omega
  · intro v hv
    rcases List.mem_range'.1 hv with ⟨j, hj, rfl⟩
    omega
  · simp [counterVals, List.getElem?_range' 0 1 (by omega : 65536 < 4294967295 - 0)]
  · intro s hu
    have hof : openFrame 65536 = none := by decide
    rw [open_channel, hu]
    simp [hof]

/-- Witness for C10: the overflowing id 65536 on a fresh tunnel. -/
theorem channel_id_overflow_witness :
    (Message.mk [] 65536 .OpenChannel).serialize = none ∧
    (open_channel TunnelState.empty 65536 true true).sent = [] ∧
    (open_channel TunnelState.empty 65536 true true).result = .error .structError :=
  ⟨channel_id_overflow.1 65536 (by decide) [] .OpenChannel,
    (channel_id_overflow.2.2.2 TunnelState.empty (by decide)).1,
    (channel_id_overflow.2.2.2 TunnelState.empty (by decide)).2.1⟩

/-!
## Receiving messages from the transport

The transport is modelled as the list of chunks that successive `recv`
calls deliver: `recv(n)` takes up to `n` bytes from the front chunk and
leaves the remainder in place.  An exhausted chunk list — or an empty
chunk, standing for a socket that signals EOF — makes `recv` return no
bytes, which is exactly the `if not _data: break` condition in
`Tunnel.recv_message`.
-/

/-- The remaining deliveries of a transport endpoint. -/
abbrev Transport := List (List Nat)

/-- `self.transport.recv(n)`: up to `n` bytes from the front chunk;
empty result models EOF. -/
def trecv (t : Transport) (n : Nat) : List Nat × Transport :=
  match t with
  | [] => ([], [])
  | c :: rest =>
    let rem := c.drop n
    (c.take n, if rem = [] then rest else rem :: rest)

/-- Total number of bytes still buffered in the transport. -/
def totalBytes (t : Transport) : Nat := (t.map List.length).sum

/-- The bytes readable before EOF: everything up to the first empty
chunk (an empty chunk means the peer closed the connection). -/
def avail : Transport → List Nat
  | [] => []
  | c :: rest => if c = [] then [] else c ++ avail rest

theorem trecv_total_lt (t : Transport) (n : Nat) (h : (trecv t n).1 ≠ []) :
    totalBytes (trecv t n).2 < totalBytes t := by
  match t with
  | [] => simp [trecv] at h
  | c :: rest =>
    simp only [trecv] at h ⊢
    have hc : c ≠ [] := by
      intro hc
      subst hc
      simp at h
    have hn : n ≠ 0 := by
      intro hn
      subst hn
      simp at h
    by_cases hrem : c.drop n = []
    · rw [if_pos hrem]
      have : 0 < c.length := List.length_pos.2 hc
      simp [totalBytes]
      omega
    · rw [if_neg hrem]
      have h1 : c.length - n < c.length := by
        have : 0 < c.length := List.length_pos.2 hc
        omega
      simp [totalBytes, List.length_drop]
      omega

/-- The header read loop of `Tunnel.recv_message`: accumulate bytes
until `HDR_SIZE` are in hand or `recv` returns nothing. -/
def recvHdrLoop (t : Transport) (acc : List Nat) : List Nat × Transport :=
  if acc.length < HDR_SIZE then
    let r := trecv t (HDR_SIZE - acc.length)
    if h : r.1 = [] then (acc, r.2)
    else recvHdrLoop r.2 (acc ++ r.1)
  else
    (acc, t)
termination_by totalBytes t
decreasing_by
  exact trecv_total_lt t (HDR_SIZE - acc.length) h

/-- The body read loop of `Tunnel.recv_message`: collect chunks until
`length` bytes have been received or `recv` returns nothing. -/
def recvBodyLoop (t : Transport) (chunks : List (List Nat)) (received length : Nat) :
    List (List Nat) × Nat × Transport :=
  if received < length then
    let r := trecv t (length - received)
    if h : r.1 = [] then (chunks, received, r.2)
    else recvBodyLoop r.2 (chunks ++ [r.1]) (received + r.1.length) length
  else
    (chunks, received, t)
termination_by totalBytes t
decreasing_by
  exact trecv_total_lt t (length - received) h

/-- Errors raised by `Tunnel.recv_message`: the two explicit
`ValueError`s for truncated header/body, plus the `ValueError` escaping
`Message.parse_hdr` on an unknown type byte. -/
inductive RErr where
  | truncHeader
  | badType (b : Nat)
  | truncBody
deriving DecidableEq, Repr

/-- `Tunnel.recv_message`: read exactly 7 header bytes (looping on short
reads), unpack the header, then read exactly `length` body bytes
accumulating chunks, and join the chunks into the body. -/
def recv_message (t : Transport) : Except RErr (Message × Transport) :=
  let r := recvHdrLoop t []
  if r.1.length ≠ HDR_SIZE then .error .truncHeader
  else
    match parse_hdr r.1 with
    | none => .error (.badType (r.1.headD 0))
    | some (mt, cid, len) =>
      let b := recvBodyLoop r.2 [] 0 len
      if b.2.1 ≠ len then .error .truncBody
      else .ok (⟨b.1.flatten, cid, mt⟩, b.2.2)

theorem trecv_take (t : Transport) (n : Nat) :
    (trecv t n).1 = (avail t).take (trecv t n).1.length := by
  match t with
  | [] => simp [trecv, avail]
  | c :: rest =>
    simp only [trecv, avail]
    by_cases hc : c = []
    · subst hc
      simp
    · rw [if_neg hc]
      have hlen : (c.take n).length = min n c.length := by simp
      rw [hlen, List.take_append_of_le_length (by omega : min n c.length ≤ c.length),
        ← List.take_take, List.take_length]

theorem trecv_len_le (t : Transport) (n : Nat) : (trecv t n).1.length ≤ n := by
  match t with
  | [] => simp [trecv]
  | c :: rest =>
    simp only [trecv]
    simp

theorem trecv_nil_iff (t : Transport) (n : Nat) (hn : 0 < n) :
    (trecv t n).1 = [] ↔ avail t = [] := by
  match t with
  | [] => simp [trecv, avail]
  | c :: rest =>
    simp only [trecv, avail]
    by_cases hc : c = []
    · subst hc
      simp
    · rw [if_neg hc, List.take_eq_nil_iff]
      simp [hc]
      omega

theorem trecv_avail (t : Transport) (n : Nat) (hgive : (trecv t n).1 ≠ []) :
    avail (trecv t n).2 = (avail t).drop (trecv t n).1.length := by
  match t with
  | [] => simp [trecv] at hgive
  | c :: rest =>
    have hc : c ≠ [] := by
      intro hc
      subst hc
      simp [trecv] at hgive
    simp only [trecv, avail, if_neg hc] at hgive ⊢
    have hlen : (c.take n).length = min n c.length := by simp
    by_cases hrem : c.drop n = []
    · rw [if_pos hrem]
      have hcn : c.length ≤ n := List.drop_eq_nil_iff.1 hrem
      rw [hlen, Nat.min_eq_right hcn, List.drop_left]
    · rw [if_neg hrem]
      have hcn : n < c.length := by
        rcases Nat.lt_or_ge n c.length with h | h
        · exact h
        · exact absurd (List.drop_of_length_le h) hrem
      rw [avail, if_neg hrem, hlen, Nat.min_eq_left (Nat.le_of_lt hcn),
        List.drop_append_of_le_length (Nat.le_of_lt hcn)]

/-- The header loop returns the first `HDR_SIZE - acc.length` available
bytes appended to `acc` (or everything available, if fewer), and on a
complete read leaves exactly the remaining available bytes. -/
theorem recvHdrLoop_spec (t : Transport) (acc : List Nat) (hacc : acc.length ≤ HDR_SIZE) :
    (recvHdrLoop t acc).1 = acc ++ (avail t).take (HDR_SIZE - acc.length) ∧
    (HDR_SIZE - acc.length ≤ (avail t).length →
      avail (recvHdrLoop t acc).2 = (avail t).drop (HDR_SIZE - acc.length)) := by
  induction t, acc using recvHdrLoop.induct with
  | case1 t acc hlt r hr =>
    rw [recvHdrLoop, if_pos hlt, dif_pos hr]
    have havail : avail t = [] := (trecv_nil_iff t (HDR_SIZE - acc.length) (by omega)).1 hr
    rw [havail]
    constructor
    · simp
    · intro hc
      simp at hc
      omega
  | case2 t acc hlt r hr ih =>
    rw [recvHdrLoop, if_pos hlt, dif_neg hr]
    have hgl : r.1.length ≤ HDR_SIZE - acc.length := trecv_len_le t (HDR_SIZE - acc.length)
    have hpre : r.1 = (avail t).take r.1.length := trecv_take t (HDR_SIZE - acc.length)
    have hglA : r.1.length ≤ (avail t).length := by
      have := congrArg List.length hpre
      simp at this
      omega
    have hAd : avail r.2 = (avail t).drop r.1.length := trecv_avail t (HDR_SIZE - acc.length) hr
    have hacc' : (acc ++ r.1).length ≤ HDR_SIZE := by
      simp
      omega
    have harith : HDR_SIZE - (acc ++ r.1).length = HDR_SIZE - acc.length - r.1.length := by
      simp
      omega
    have hsum : r.1.length + (HDR_SIZE - acc.length - r.1.length) = HDR_SIZE - acc.length := by
      omega
    obtain ⟨ih1, ih2⟩ := ih hacc'
    constructor
    · have hsplit := List.take_add (avail t) r.1.length (HDR_SIZE - acc.length - r.1.length)
      rw [hsum] at hsplit
      rw [ih1, hAd, harith, List.append_assoc, hsplit, ← hpre]
    · intro hcomplete
      rw [hAd, harith] at ih2
      have hc2 : HDR_SIZE - acc.length - r.1.length ≤ ((avail t).drop r.1.length).length := by
        simp
        omega
      rw [ih2 hc2, List.drop_drop, hsum]
  | case3 t acc hlt =>
    rw [recvHdrLoop, if_neg hlt]
    have : HDR_SIZE - acc.length = 0 := by omega
    rw [this]
    simp

/-- The body loop: the collected chunks concatenate, in arrival order,
to the first `length - received` available bytes (or all of them);
the final `received` counter reflects exactly how many arrived. -/
theorem recvBodyLoop_spec (t : Transport) (chunks : List (List Nat))
    (received length : Nat) :
    (recvBodyLoop t chunks received length).1.flatten =
      chunks.flatten ++ (avail t).take (length - received) ∧
    (recvBodyLoop t chunks received length).2.1 =
      received + min (length - received) (avail t).length ∧
    (length - received ≤ (avail t).length →
      avail (recvBodyLoop t chunks received length).2.2 =
        (avail t).drop (length - received)) := by
  induction t, chunks, received, length using recvBodyLoop.induct with
  | case1 t chunks received length hlt r hr =>
    rw [recvBodyLoop, if_pos hlt, dif_pos hr]
    have havail : avail t = [] := (trecv_nil_iff t (length - received) (by omega)).1 hr
    rw [havail]
    refine ⟨by simp, by simp, ?_⟩
    intro hc
    simp at hc
    omega
  | case2 t chunks received length hlt r hr ih =>
    rw [recvBodyLoop, if_pos hlt, dif_neg hr]
    have hgl : r.1.length ≤ length - received := trecv_len_le t (length - received)
    have hpre : r.1 = (avail t).take r.1.length := trecv_take t (length - received)
    have hglA : r.1.length ≤ (avail t).length := by
      have := congrArg List.length hpre
      simp at this
      omega
    have hAd : avail r.2 = (avail t).drop r.1.length := trecv_avail t (length - received) hr
    obtain ⟨ih1, ih2, ih3⟩ := ih
    have harith : length - (received + r.1.length) = length - received - r.1.length := by
      omega
    have hsum : r.1.length + (length - received - r.1.length) = length - received := by
      omega
    refine ⟨?_, ?_, ?_⟩
    · have hsplit := List.take_add (avail t) r.1.length (length - received - r.1.length)
      rw [hsum] at hsplit
      rw [ih1, hAd, harith]
      simp only [List.flatten_append, List.flatten_cons, List.flatten_nil, List.append_nil]
      rw [List.append_assoc, hsplit, ← hpre]
    · rw [ih2, hAd, harith]
      simp only [List.length_drop]
      omega
    · intro hcomplete
      rw [hAd, harith] at ih3
      have hc2 : length - received - r.1.length ≤ ((avail t).drop r.1.length).length := by
        simp
        omega
      rw [ih3 hc2, List.drop_drop, hsum]
  | case3 t chunks received length hlt =>
    rw [recvBodyLoop, if_neg hlt]
    have : length - received = 0 := by omega
    rw [this]
    simp

/-- Outcome of one transport-ready iteration of `Tunnel._monitor`:
either the fatal teardown path (log critical, SIGINT, exit) or a
dispatched message. -/
inductive MonStep where
  | fatal (e : RErr)
  | step (d : DispatchOut) (t' : Transport)

/-- The transport branch of one `Tunnel._monitor` iteration. -/
def monitorTransportStep (s : TunnelState) (t : Transport) : MonStep :=
  match recv_message t with
  | .error e => .fatal e
  | .ok (m, t') => .step (monitorDispatch s m) t'

/-- C6 (amended).  `recv_message` fails with the truncated-header error
exactly when fewer than 7 bytes are available before EOF; when a full
header arrives whose type byte is a valid `MessageType`, it fails with
the truncated-body error exactly when fewer than the announced `length`
body bytes arrive before EOF, and otherwise returns a Message whose body
is exactly the announced `length` bytes — the received chunks
concatenated in arrival order (here: the next `length` available
bytes); any `recv_message` failure in the monitor loop is fatal to the
tunnel. -/
theorem recv_message_framing :
    (∀ t : Transport, (avail t).length < 7 → recv_message t = .error .truncHeader) ∧
    (∀ (t : Transport) (ty x1 x2 l1 l2 l3 l4 : Nat) (rest : List Nat) (mt : MessageType),
      avail t = ty :: x1 :: x2 :: l1 :: l2 :: l3 :: l4 :: rest →
      MessageType.ofNat? ty = some mt →
      (rest.length < be32dec l1 l2 l3 l4 → recv_message t = .error .truncBody) ∧
      (be32dec l1 l2 l3 l4 ≤ rest.length →
        ∃ t2, recv_message t =
            .ok (⟨rest.take (be32dec l1 l2 l3 l4), be16dec x1 x2, mt⟩, t2) ∧
          (rest.take (be32dec l1 l2 l3 l4)).length = be32dec l1 l2 l3 l4)) ∧
    (∀ (s : TunnelState) (t : Transport) (e : RErr),
      recv_message t = .error e → monitorTransportStep s t = .fatal e) := by
  have hseven : HDR_SIZE = 7 := rfl
  refine ⟨?_, ?_, ?_⟩
  · intro t hshort
    obtain ⟨h1, _⟩ := recvHdrLoop_spec t [] (by simp)
    have hlen : (recvHdrLoop t []).1.length = min HDR_SIZE (avail t).length := by
      rw [h1]
      simp
    have hne : (recvHdrLoop t []).1.length ≠ HDR_SIZE := by
      rw [hlen]
      omega
    simp only [recv_message, if_pos hne]
  · intro t ty x1 x2 l1 l2 l3 l4 rest mt hav hmt
    obtain ⟨h1, h2⟩ := recvHdrLoop_spec t [] (by simp)
    rw [hav] at h1 h2
    simp only [List.length_nil, Nat.sub_zero, List.nil_append, hseven] at h1 h2
    have h1' : (recvHdrLoop t []).1 = [ty, x1, x2, l1, l2, l3, l4] := by
      rw [h1]
      rfl
    have hcomplete : (7 : Nat) ≤ (ty :: x1 :: x2 :: l1 :: l2 :: l3 :: l4 :: rest).length := by
      simp
    have h2' : avail (recvHdrLoop t []).2 = rest := by
      rw [h2 hcomplete]
      rfl
    have hlenok : ¬((recvHdrLoop t []).1.length ≠ HDR_SIZE) := by
      rw [h1']
      simp [hseven]
    obtain ⟨hb1, hb2, _⟩ :=
      recvBodyLoop_spec (recvHdrLoop t []).2 [] 0 (be32dec l1 l2 l3 l4)
    rw [h2'] at hb1 hb2
    simp only [Nat.sub_zero, List.flatten_nil, List.nil_append] at hb1 hb2
    constructor
    · intro hshortbody
      have hne : (recvBodyLoop (recvHdrLoop t []).2 [] 0 (be32dec l1 l2 l3 l4)).2.1 ≠
          be32dec l1 l2 l3 l4 := by
        rw [hb2]
        omega
      simp only [recv_message, if_neg hlenok, h1', parse_hdr, hmt, Option.map_some',
        if_pos hne]
      simp [hseven]
    · intro hlong
      have heq : ¬((recvBodyLoop (recvHdrLoop t []).2 [] 0 (be32dec l1 l2 l3 l4)).2.1 ≠
          be32dec l1 l2 l3 l4) := by
        rw [hb2]
        omega
      refine ⟨(recvBodyLoop (recvHdrLoop t []).2 [] 0 (be32dec l1 l2 l3 l4)).2.2, ?_, ?_⟩
      · simp only [recv_message, if_neg hlenok, h1', parse_hdr, hmt, Option.map_some',
          if_neg heq, hb1]
        simp [hseven]
      · simp
        omega
  · intro s t e h
    simp only [monitorTransportStep, h]

set_option maxRecDepth 10000 in
/-- Witness for C6: a header announcing a 1000-byte body followed by
only 500 body bytes before EOF yields the truncated-body failure. -/
theorem recv_message_framing_witness :
    recv_message [[1, 0, 3, 0, 0, 3, 232], List.replicate 500 97] = .error .truncBody :=
  (recv_message_framing.2.1 [[1, 0, 3, 0, 0, 3, 232], List.replicate 500 97]
    1 0 3 0 0 3 232 (List.replicate 500 97) .Data
    (by simp [avail]) rfl).1 (by simp [be32dec])

/-- Counterexample to C6 as stated: the stream delivering the complete
7-byte header `07 00 00 00 00 00 00` is not truncated (a full header and
all 0 announced body bytes arrive), yet `recv_message` does not return a
Message — the unknown type byte 0x07 raises the `ValueError` escaping
`Message.parse_hdr`. -/
theorem recv_message_framing_cex :
    recv_message [[7, 0, 0, 0, 0, 0, 0]] = .error (.badType 7) := by
  simp [recv_message, recvHdrLoop, trecv, parse_hdr, HDR_SIZE, MessageType.ofNat?,
    recvBodyLoop]

/-!
## SOCKS5 negotiator (`Socks5Proxy`)

`new_connect` is modelled from the bytes of the CONNECT request onward
(the greeting `recv` accepts anything and is elided; its `[5, 0]`
no-auth reply is the first entry of `sent`).  The dial inside
`_remote_connect` is abstracted by a parameter: `none` when `connect`
raises, `some (addr, port)` giving the local address bytes (network
order, as `inet_pton` would produce them) and port from `getsockname()`.
-/

/-- Address family passed to `socket.socket` and `inet_pton`. -/
inductive AddrFam where
  | inet
  | inet6
deriving DecidableEq, Repr

/-- The reply bytes built and sent by `Socks5Proxy._remote_connect`. -/
def remoteConnectReply (af : AddrFam) (dial : Option (List Nat × Nat)) : List Nat :=
  let atyp : Nat := match af with | .inet => 1 | .inet6 => 4
  let zeros : List Nat := match af with
    | .inet => [0, 0, 0, 0]
    | .inet6 => List.replicate 16 0
  match dial with
  | none => [5, 5, 0, atyp] ++ zeros ++ be16 0
  | some (addr, port) => [5, 0, 0, atyp] ++ addr ++ be16 port

/-- A UTF-8 continuation byte, `0x80`–`0xBF`. -/
def isCont (b : Nat) : Bool := 128 ≤ b && b ≤ 191

/-- Strict UTF-8 validity of a byte string, as enforced by Python's
`bytes.decode()` with the default strict `utf-8` codec: ASCII lead
bytes, 2-byte sequences `C2`–`DF`, 3-byte sequences `E0`–`EF` with the
narrowed second-byte ranges that exclude overlong encodings (`E0`) and
surrogates (`ED`), 4-byte sequences `F0`–`F4` with the narrowed ranges
that exclude overlongs (`F0`) and code points above U+10FFFF (`F4`);
everything else raises `UnicodeDecodeError`. -/
def validUtf8 : List Nat → Bool
  | [] => true
  | b :: rest =>
    if b ≤ 127 then validUtf8 rest
    else if 194 ≤ b && b ≤ 223 then
      match rest with
      | c1 :: r => isCont c1 && validUtf8 r
      | _ => false
    else if b = 224 then
      match rest with
      | c1 :: c2 :: r => (160 ≤ c1 && c1 ≤ 191) && isCont c2 && validUtf8 r
      | _ => false
    else if 225 ≤ b && b ≤ 236 then
      match rest with
      | c1 :: c2 :: r => isCont c1 && isCont c2 && validUtf8 r
      | _ => false
    else if b = 237 then
      match rest with
      | c1 :: c2 :: r => (128 ≤ c1 && c1 ≤ 159) && isCont c2 && validUtf8 r
      | _ => false
    else if 238 ≤ b && b ≤ 239 then
      match rest with
      | c1 :: c2 :: r => isCont c1 && isCont c2 && validUtf8 r
      | _ => false
    else if b = 240 then
      match rest with
      | c1 :: c2 :: c3 :: r => (144 ≤ c1 && c1 ≤ 191) && isCont c2 && isCont c3 && validUtf8 r
      | _ => false
    else if 241 ≤ b && b ≤ 243 then
      match rest with
      | c1 :: c2 :: c3 :: r => isCont c1 && isCont c2 && isCont c3 && validUtf8 r
      | _ => false
    else if b = 244 then
      match rest with
      | c1 :: c2 :: c3 :: r => (128 ≤ c1 && c1 ≤ 143) && isCont c2 && isCont c3 && validUtf8 r
      | _ => false
    else false

/-- Failures of `Socks5Proxy.new_connect`: the two explicit
`ValueError`s for a bad or short request, the unknown-ATYP
`ValueError`, the `UnicodeDecodeError` from the strict decode of the
domain bytes, and the `struct.error`/`OSError` escaping the address
field slicing when the request is shorter than its ATYP demands. -/
inductive SockErr where
  | badRequest
  | incompleteRequest
  | unknownAddrType
  | unicodeDecodeError
  | shortRequest
deriving DecidableEq, Repr

/-- Result of `Socks5Proxy.new_connect`: every byte string sent on the
channel (in order), whether the stream was closed, and the parsed
(address family, address bytes, port) or the raised error. -/
structure NCRes where
  sent : List (List Nat)
  closed : Bool
  result : Except SockErr (AddrFam × List Nat × Nat)
deriving Repr

/-- `Socks5Proxy.new_connect` from the CONNECT request on, composed with
`_remote_connect`'s reply for requests that parse.  In the domain
branch the source strictly decodes the sliced domain bytes
(`request_data[5:5+length].decode()`) before unpacking the port, so an
invalid UTF-8 domain raises `UnicodeDecodeError` with no dial reply
sent; the decoded string itself is kept here as its raw bytes. -/
def new_connect (request : List Nat) (dial : Option (List Nat × Nat)) : NCRes :=
  let auth : List Nat := [5, 0]
  if 10 ≤ request.length then
    let ver := request.getD 0 0
    let cmd := request.getD 1 0
    let atyp := request.getD 3 0
    if ver ≠ 5 ∨ cmd ≠ 1 then
      ⟨[auth, [5, 1, 0, 0]], true, .error .badRequest⟩
    else if atyp = 1 then
      let addr := (request.drop 4).take 4
      let port := be16dec (request.getD 8 0) (request.getD 9 0)
      ⟨[auth, remoteConnectReply .inet dial], false, .ok (.inet, addr, port)⟩
    else if atyp = 3 then
      let L := request.getD 4 0
      let addr := (request.drop 5).take L
      if validUtf8 addr then
        if request.length < L + 7 then
          ⟨[auth], false, .error .shortRequest⟩
        else
          let port := be16dec (request.getD (L + 5) 0) (request.getD (L + 6) 0)
          ⟨[auth, remoteConnectReply .inet dial], false, .ok (.inet, addr, port)⟩
      else
        ⟨[auth], false, .error .unicodeDecodeError⟩
    else if atyp = 4 then
      if request.length < 22 then
        ⟨[auth], false, .error .shortRequest⟩
      else
        let addr := (request.drop 4).take 16
        let port := be16dec (request.getD 20 0) (request.getD 21 0)
        ⟨[auth, remoteConnectReply .inet6 dial], false, .ok (.inet6, addr, port)⟩
    else
      ⟨[auth, [5, 8, 0, 0]], true, .error .unknownAddrType⟩
  else
    ⟨[auth, [5, 1, 0, 0]], true, .error .incompleteRequest⟩

/-- C8.  For a CONNECT request of at least 10 bytes: a wrong version or
command byte gets exactly the reply `05 01 00 00`, the stream is closed
and the negotiator fails; a request reaching the ATYP dispatch with an
ATYP outside {1, 3, 4} gets exactly `05 08 00 00`, closed and failed. -/
theorem socks5_reject (request : List Nat) (dial : Option (List Nat × Nat))
    (hlen : 10 ≤ request.length) :
    (request.getD 0 0 ≠ 5 ∨ request.getD 1 0 ≠ 1 →
      new_connect request dial = ⟨[[5, 0], [5, 1, 0, 0]], true, .error .badRequest⟩) ∧
    (request.getD 0 0 = 5 → request.getD 1 0 = 1 →
      request.getD 3 0 ≠ 1 → request.getD 3 0 ≠ 3 → request.getD 3 0 ≠ 4 →
      new_connect request dial = ⟨[[5, 0], [5, 8, 0, 0]], true, .error .unknownAddrType⟩) := by
  constructor
  · intro hbad
    rw [new_connect, if_pos hlen, if_pos hbad]
  · intro hv hc h1 h3 h4
    rw [new_connect, if_pos hlen, if_neg (by push_neg; exact ⟨hv, hc⟩), if_neg h1,
      if_neg h3, if_neg h4]

/-- Witness for C8: the spec's concrete scenario, a 10-byte request
beginning `05 01 00 09` (unsupported ATYP 9). -/
theorem socks5_reject_witness :
    new_connect [5, 1, 0, 9, 0, 0, 0, 0, 0, 80] none =
      ⟨[[5, 0], [5, 8, 0, 0]], true, .error .unknownAddrType⟩ :=
  (socks5_reject [5, 1, 0, 9, 0, 0, 0, 0, 0, 80] none (by decide)).2
    (by decide) (by decide) (by decide) (by decide) (by decide)

/-- C9 (amended).  On dial failure the negotiator replies
`05 05 00 A` followed by an all-zeros address and port 0 encoded for the
dialing family, and on success `05 00 00 A` followed by the locally
bound address and the port as two big-endian bytes — where the reply
byte `A` is the *dialing family's* RFC 1928 code: 1 for IPv4 and also
for domain requests (which dial over IPv4), 4 for IPv6; it is not the
request's ATYP for domain requests.  The domain bullet additionally
requires the sliced domain bytes to decode as strict UTF-8 — otherwise
the source raises `UnicodeDecodeError` before any dial reply. -/
theorem socks5_dial_reply :
    (∀ af : AddrFam,
      remoteConnectReply af none =
        [5, 5, 0, if af = .inet6 then 4 else 1] ++
          List.replicate (if af = .inet6 then 16 else 4) 0 ++ [0, 0]) ∧
    (∀ (af : AddrFam) (addr : List Nat) (port : Nat), port ≤ 65535 →
      remoteConnectReply af (some (addr, port)) =
        [5, 0, 0, if af = .inet6 then 4 else 1] ++ addr ++
          [port / 256, port % 256]) ∧
    (∀ (request : List Nat) (dial : Option (List Nat × Nat)),
      10 ≤ request.length → request.getD 0 0 = 5 → request.getD 1 0 = 1 →
      (request.getD 3 0 = 1 →
        (new_connect request dial).sent = [[5, 0], remoteConnectReply .inet dial]) ∧
      (request.getD 3 0 = 3 →
        validUtf8 ((request.drop 5).take (request.getD 4 0)) = true →
        request.getD 4 0 + 7 ≤ request.length →
        (new_connect request dial).sent = [[5, 0], remoteConnectReply .inet dial]) ∧
      (request.getD 3 0 = 4 → 22 ≤ request.length →
        (new_connect request dial).sent = [[5, 0], remoteConnectReply .inet6 dial])) := by
  refine ⟨?_, ?_, ?_⟩
  · intro af
    cases af <;> rfl
  · intro af addr port hp
    cases af <;> simp [remoteConnectReply, be16] <;> omega
  · intro request dial hlen hv hc
    refine ⟨?_, ?_, ?_⟩
    · intro h1
      rw [new_connect, if_pos hlen, if_neg (by push_neg; exact ⟨hv, hc⟩), if_pos h1]
    · intro h3 hdec hL
      rw [new_connect, if_pos hlen, if_neg (by push_neg; exact ⟨hv, hc⟩),
        if_neg (by rw [h3]; decide), if_pos h3, if_pos hdec, if_neg (by omega)]
    · intro h4 h22
      rw [new_connect, if_pos hlen, if_neg (by push_neg; exact ⟨hv, hc⟩),
        if_neg (by rw [h4]; decide), if_neg (by rw [h4]; decide), if_pos h4,
        if_neg (by omega)]

/-- Witness for C9: an IPv4 CONNECT whose dial fails gets the reply
`05 05 00 01` plus four zero address bytes and a zero port. -/
theorem socks5_dial_reply_witness :
    (new_connect [5, 1, 0, 1, 10, 0, 0, 1, 0, 80] none).sent =
      [[5, 0], [5, 5, 0, 1, 0, 0, 0, 0, 0, 0]] := by
  have h3 := (socks5_dial_reply.2.2 [5, 1, 0, 1, 10, 0, 0, 1, 0, 80] none
    (by decide) (by decide) (by decide)).1 (by decide)
  have h1 := socks5_dial_reply.1 .inet
  rw [h3, h1]
  rfl

/-- Counterexample to C9 as stated: a domain (ATYP 3) request whose dial
fails is answered with reply ATYP byte 0x01 and a 4-byte zero address,
not with the request's ATYP 0x03. -/
theorem socks5_dial_reply_cex :
    (new_connect [5, 1, 0, 3, 1, 97, 0, 80, 0, 0] none).sent =
      [[5, 0], [5, 5, 0, 1, 0, 0, 0, 0, 0, 0]] := by
  decide

end Arox
